import Mathlib

/-!
Shallow embedding of `src/sky_events.py` (Sky Events Notifier).

Modelling conventions:
* Timezone-aware `datetime` values are modelled as absolute instants in
  integer epoch seconds (`Int`).  `astimezone(DEFAULT_TZ)` changes only the
  display representation of a Python datetime, never the instant it denotes,
  so in the embedding it is the identity on instants; comparisons between
  datetimes in Python compare instants, matching `Int` order here.
* `datetime.timedelta(days = h)` is `h * 86400` seconds.
* `now_local()` reads a wall clock.  The embedding threads an explicit
  clock `clock : Nat → Int`: reading number `i` of one call of
  `extract_meteors_eclipses` returns `clock i`.  The source calls
  `now_local()` once for `cutoff` (reading 0) and once more for every entry
  that reaches the window test on line 75 (readings 1, 2, ...).
* Python strings are Lean `String`s.  `str.strip`, `str.lower` and the
  substring test `in` are re-implemented below on the character list,
  restricted to ASCII (the keywords and all names in the claims are ASCII).
* JSON values are an inductive `Json` with integer numbers (the fields the
  program reads — `startUTC`, `endUTC`, `maxEl` — are integral epoch seconds
  and degrees; `mag` is carried opaquely).  Python exceptions are an
  explicit `PyExc` error monad (`Except PyExc`).
-/

/-! ## Python string primitives (ASCII) -/

/-- `str.lower` on one ASCII character. -/
def lowerChar (c : Char) : Char :=
  if 'A' ≤ c ∧ c ≤ 'Z' then Char.ofNat (c.toNat + 32) else c

/-- Python `str.lower()` (ASCII fragment). -/
def pyLower (s : String) : String := String.mk (s.toList.map lowerChar)

/-- Whitespace characters removed by Python `str.strip()` (ASCII fragment). -/
def isSpaceChar (c : Char) : Bool :=
  c == ' ' || c == '\t' || c == '\n' || c == '\r'

/-- Python `str.strip()`: drop leading and trailing whitespace. -/
def pyStrip (s : String) : String :=
  String.mk (((s.toList.dropWhile isSpaceChar).reverse.dropWhile isSpaceChar).reverse)

/-- Does the pattern occur at the head of the list? -/
def matchHere : List Char → List Char → Bool
  | [], _ => true
  | _ :: _, [] => false
  | a :: as, b :: bs => a == b && matchHere as bs

/-- Does the pattern occur anywhere in the list? -/
def listHas : List Char → List Char → Bool
  | l, p =>
    if matchHere p l then true
    else
      match l with
      | [] => false
      | _ :: t => listHas t p

/-- Python `pat in s` substring test. -/
def strContains (s pat : String) : Bool := listHas s.toList pat.toList

/-! ## Data model -/

/-- `KEYWORDS` tuple from `sky_events.py` lines 39–42. -/
def KEYWORDS : List String := ["meteor shower", "eclipse"]

/-- A raw calendar entry as `extract_meteors_eclipses` sees it: `ev.name`
may be missing (Python `None`), `ev.begin` may be missing; when present,
`ev.begin.datetime` is the start instant in epoch seconds. -/
structure CalEntry where
  name : Option String
  begin_dt : Option Int
  deriving DecidableEq, Repr

/-- A JSON value as decoded by `r.json()`.  Numbers are restricted to the
integers: every numeric field the program computes with (`startUTC`,
`endUTC`, `maxEl`) is integral in the API, and `mag` is only copied. -/
inductive Json where
  | null : Json
  | bool (b : Bool) : Json
  | num (n : Int) : Json
  | str (s : String) : Json
  | arr (items : List Json) : Json
  | obj (fields : List (String × Json)) : Json

/-- The normalized event dict.  Classifier events carry no `end`/`mag` key,
modelled as `none`; an ISS event's `mag` of `none` is Python `None`.
`etype` is the dict's `"type"` entry (the source's local variable name). -/
structure Event where
  etype : String
  name : String
  start : Int
  endTime : Option Int
  mag : Option Json
  source : String

/-! ## Stable sort (`list.sort(key=lambda e: e["start"])`)

Python's `list.sort` is a stable sort by the key.  A stable sort by a key is
unique among sorted permutations, so the embedding may use any stable
sorting algorithm; insertion sort is used, inserting each element before
the first strictly-later-keyed element so that equal keys keep input order. -/

/-- Insert an event before the first element whose start is not smaller.
`sortByStart` inserts earlier input elements into the sorted rest of the
list, so placing them in front of equal keys is exactly stability. -/
def insertEv (e : Event) : List Event → List Event
  | [] => [e]
  | x :: xs => if e.start ≤ x.start then e :: x :: xs else x :: insertEv e xs

/-- Stable sort ascending by the `start` field: the embedding of
`out.sort(key=lambda e: e["start"])`. -/
def sortByStart : List Event → List Event
  | [] => []
  | x :: xs => insertEv x (sortByStart xs)

/-! ## `extract_meteors_eclipses` (lines 60–86) -/

/-- Line 77: `etype = "Meteor Shower" if "meteor shower" in lname else
("Eclipse" if "eclipse" in lname else "Event")`. -/
def etypeOf (lname : String) : String :=
  if strContains lname "meteor shower" then "Meteor Shower"
  else if strContains lname "eclipse" then "Eclipse"
  else "Event"

/-- The loop body of lines 64–84.  `k` counts the `now_local()` readings
already taken in this call, so the window test of line 75 for the current
entry compares against `clock k`.  Entries rejected by the keyword or
missing-start tests never reach line 75 and consume no reading. -/
def extractGo (clock : Nat → Int) (cutoff : Int) : List CalEntry → Nat → List Event
  | [], _ => []
  | ev :: rest, k =>
    let name := pyStrip (ev.name.getD "")
    let lname := pyLower name
    if KEYWORDS.any (fun kw => strContains lname kw) then
      match ev.begin_dt with
      | none => extractGo clock cutoff rest k
      | some start =>
        if start < clock k ∨ cutoff < start then
          extractGo clock cutoff rest (k + 1)
        else
          { etype := etypeOf lname, name := name, start := start,
            endTime := none, mag := none, source := "In-The-Sky iCal" }
            :: extractGo clock cutoff rest (k + 1)
    else extractGo clock cutoff rest k

/-- `extract_meteors_eclipses(cal, horizon_days)`: line 62 takes reading 0
for `cutoff = now_local() + timedelta(days=horizon_days)`; the loop then
filters, classifies and collects; line 85 stable-sorts by start. -/
def extract_meteors_eclipses (clock : Nat → Int) (cal : List CalEntry)
    (horizon_days : Int) : List Event :=
  let cutoff := clock 0 + horizon_days * 86400
  sortByStart (extractGo clock cutoff cal 1)

/-- The merge stage of `main` (lines 180–181): concatenate the adapter
outputs and stable-sort the concatenation by start. -/
def mergeEvents (l1 l2 : List Event) : List Event := sortByStart (l1 ++ l2)

/-! ## `fetch_iss_passes` (lines 88–126) -/

/-- The Python exceptions the embedded code can raise or catch. -/
inductive PyExc where
  | requestError : PyExc
  | httpStatusError : PyExc
  | jsonDecodeError : PyExc
  | attributeError : PyExc
  | typeError : PyExc
  | valueError : PyExc
  deriving DecidableEq, Repr

/-- What `requests.get(url, timeout=30)` can come back with: a raised
network-level exception, or a response with a status code and a body that
either decodes as JSON (`some`) or makes `r.json()` raise (`none`). -/
inductive HttpResponse where
  | netError : HttpResponse
  | ok (status : Nat) (body : Option Json) : HttpResponse

/-- The request `fetch_iss_passes` builds on line 98: satellite id is fixed
(ISS), the rest comes from the arguments and the key.  The numeric
arguments only select a response here, so they are modelled as `Int`. -/
structure N2yoRequest where
  lat : Int
  lon : Int
  alt_m : Int
  days : Int
  min_elev : Int
  apiKey : String

/-- Python truthiness of a decoded JSON value (used by `... or []`). -/
def Json.truthy : Json → Bool
  | .null => false
  | .bool b => b
  | .num n => n != 0
  | .str s => !s.toList.isEmpty
  | .arr items => !items.isEmpty
  | .obj fields => !fields.isEmpty

/-- Python `d.get(key, dflt)`: `AttributeError` when the receiver is not a
dict, else the first value stored under the key, else the default. -/
def jsonGet (j : Json) (key : String) (dflt : Json) : Except PyExc Json :=
  match j with
  | .obj fields => .ok ((List.lookup key fields).getD dflt)
  | _ => .error .attributeError

/-- Python `for p in x`: lists yield their items, strings their characters,
dicts their keys; other values raise `TypeError`. -/
def pyIter : Json → Except PyExc (List Json)
  | .arr items => .ok items
  | .str s => .ok (s.toList.map (fun c => Json.str (String.mk [c])))
  | .obj fields => .ok (fields.map (fun kv => Json.str kv.1))
  | _ => .error .typeError

/-- `datetime.fromtimestamp(x, tz=utc)`: needs a numeric argument (a bool
is an int in Python); the resulting instant is the epoch-seconds value
itself, and the later `astimezone(DEFAULT_TZ)` keeps the instant. -/
def pyTimestamp : Json → Except PyExc Int
  | .num n => .ok n
  | .bool b => .ok (if b then 1 else 0)
  | _ => .error .typeError

/-- Python `int(x)` as applied on line 113. -/
def pyIntOf : Json → Except PyExc Int
  | .num n => .ok n
  | .bool b => .ok (if b then 1 else 0)
  | .str s =>
    match (pyStrip s).toInt? with
    | some n => .ok n
    | none => .error .valueError
  | _ => .error .typeError

/-- The `for` loop of lines 108–123 as a whole: process the records left to
right, collecting one result per record; the first exception aborts the
loop and propagates. -/
def mapExcept {α β ε : Type} (f : α → Except ε β) : List α → Except ε (List β)
  | [] => .ok []
  | a :: as => do
    let b ← f a
    let bs ← mapExcept f as
    pure (b :: bs)

/-- The loop body of lines 108–123: convert one pass record into an event
dict.  Field order follows the source; any failure propagates (the loop is
outside the `try` of lines 99–104). -/
def convertPass (p : Json) : Except PyExc Event := do
  let startRaw ← jsonGet p "startUTC" (Json.num 0)
  let start_utc ← pyTimestamp startRaw
  let endRaw ← jsonGet p "endUTC" (Json.num 0)
  let end_utc ← pyTimestamp endRaw
  let maxElRaw ← jsonGet p "maxEl" (Json.num 0)
  let max_el ← pyIntOf maxElRaw
  let magRaw ← jsonGet p "mag" Json.null
  let mag : Option Json := match magRaw with | .null => none | v => some v
  pure { etype := "ISS Pass",
         name := "ISS visible pass (max elev ~" ++ toString max_el ++ "°)",
         start := start_utc, endTime := some end_utc, mag := mag,
         source := "N2YO" }

/-- `fetch_iss_passes(lat, lon, alt_m, days, min_elev)`.  `api_key` is the
value of `os.environ.get("N2YO_API_KEY")` (`none` when unset); `net` stands
for the network: the response `requests.get` produces for a request.  The
result pairs what the function returns (or the exception it raises) with
the number of network calls it made.  Lines 99–104 catch every exception
from the request, the status check and the JSON decode and return `[]`;
`r.raise_for_status()` raises exactly for the client- and server-error
statuses 400–599; lines 106–126 run outside that `try` block. -/
def fetch_iss_passes (api_key : Option String)
    (net : N2yoRequest → HttpResponse)
    (lat lon alt_m days min_elev : Int) :
    Except PyExc (List Event) × Nat :=
  match api_key with
  | none => (.ok [], 0)
  | some key =>
    if key = "" then (.ok [], 0)
    else
      match net { lat := lat, lon := lon, alt_m := alt_m, days := days,
                  min_elev := min_elev, apiKey := key } with
      | .netError => (.ok [], 1)
      | .ok status body =>
        if 400 ≤ status ∧ status < 600 then (.ok [], 1)
        else
          match body with
          | none => (.ok [], 1)
          | some data =>
            ((do
              let passesRaw ← jsonGet data "passes" (Json.arr [])
              let passes := if passesRaw.truthy then passesRaw else Json.arr []
              let items ← pyIter passes
              let out ← mapExcept convertPass items
              pure (sortByStart out)), 1)

/-! ## Spec-side classifier (refinement target for C1) -/

/-- The classifier as the spec words it, for a single instant `t` taken as
"now": retain an entry iff its trimmed lower-cased name contains a
configured keyword, it has a start time, and the start lies in
`[t, t + horizon_days]`; tag and sort as in §3/§4.2 of the spec. -/
def classifierSpec (t : Int) (cal : List CalEntry) (horizon_days : Int) :
    List Event :=
  sortByStart (cal.filterMap (fun ev =>
    let name := pyStrip (ev.name.getD "")
    let lname := pyLower name
    match ev.begin_dt with
    | none => none
    | some start =>
      if KEYWORDS.any (fun kw => strContains lname kw)
          ∧ t ≤ start ∧ start ≤ t + horizon_days * 86400 then
        some { etype := etypeOf lname, name := name, start := start,
               endTime := none, mag := none, source := "In-The-Sky iCal" }
      else none))

/-! ## Lemmas about the stable sort -/

theorem mem_insertEv {a e : Event} {l : List Event} :
    a ∈ insertEv e l ↔ a = e ∨ a ∈ l := by
  induction l with
  | nil => simp [insertEv]
  | cons x xs ih =>
    simp only [insertEv]
    split
    · simp only [List.mem_cons]
    · simp only [List.mem_cons, ih]
      tauto

theorem pairwise_insertEv {e : Event} {l : List Event}
    (h : l.Pairwise (fun a b => a.start ≤ b.start)) :
    (insertEv e l).Pairwise (fun a b => a.start ≤ b.start) := by
  induction l with
  | nil => simp [insertEv]
  | cons x xs ih =>
    rcases List.pairwise_cons.mp h with ⟨hx, hxs⟩
    simp only [insertEv]
    split
    · rename_i hle
      refine List.pairwise_cons.mpr ⟨?_, h⟩
      intro a ha
      rcases List.mem_cons.mp ha with rfl | ha
      · exact hle
      · exact le_trans hle (hx a ha)
    · rename_i hgt
      have hxe : x.start ≤ e.start := le_of_not_le hgt
      refine List.pairwise_cons.mpr ⟨?_, ih hxs⟩
      intro a ha
      rcases mem_insertEv.mp ha with rfl | ha
      · exact hxe
      · exact hx a ha

theorem sorted_sortByStart (l : List Event) :
    (sortByStart l).Pairwise (fun a b => a.start ≤ b.start) := by
  induction l with
  | nil => exact List.Pairwise.nil
  | cons x xs ih => exact pairwise_insertEv ih

theorem mem_sortByStart {a : Event} {l : List Event} :
    a ∈ sortByStart l ↔ a ∈ l := by
  induction l with
  | nil => simp [sortByStart]
  | cons x xs ih =>
    simp only [sortByStart, mem_insertEv, List.mem_cons, ih]

theorem length_insertEv (e : Event) (l : List Event) :
    (insertEv e l).length = l.length + 1 := by
  induction l with
  | nil => rfl
  | cons x xs ih =>
    simp only [insertEv]
    split
    · rfl
    · simp [List.length_cons, ih]

theorem length_sortByStart (l : List Event) :
    (sortByStart l).length = l.length := by
  induction l with
  | nil => rfl
  | cons x xs ih => simp [sortByStart, length_insertEv, ih]

theorem filter_start_insertEv (k : Int) (e : Event) (l : List Event) :
    (insertEv e l).filter (fun a => a.start == k)
      = if e.start == k
        then e :: l.filter (fun a => a.start == k)
        else l.filter (fun a => a.start == k) := by
  induction l with
  | nil =>
    by_cases hek : e.start = k <;> simp [insertEv, List.filter_cons, hek]
  | cons x xs ih =>
    simp only [insertEv]
    split
    · rename_i hle
      by_cases hek : e.start = k <;> simp [List.filter_cons, hek]
    · rename_i hgt
      have hxe : x.start < e.start := lt_of_not_le hgt
      by_cases hek : e.start = k
      · have hxk : ¬ x.start = k := by omega
        simp [List.filter_cons, ih, hek, hxk]
      · by_cases hxk : x.start = k <;>
          simp [List.filter_cons, ih, hek, hxk]

/-! ## Lemmas about the classifier -/

/-- Every event the loop of lines 64–84 emits passed the keyword test of
line 67 on its stored (trimmed) name, and got its tag from line 77. -/
theorem mem_extractGo (clock : Nat → Int) (cutoff : Int) :
    ∀ (cal : List CalEntry) (k : Nat) (e : Event),
      e ∈ extractGo clock cutoff cal k →
      KEYWORDS.any (fun kw => strContains (pyLower e.name) kw) = true
        ∧ e.etype = etypeOf (pyLower e.name) := by
  intro cal
  induction cal with
  | nil =>
    intro k e h
    simp [extractGo] at h
  | cons ev rest ih =>
    intro k e h
    obtain ⟨nm, bd⟩ := ev
    simp only [extractGo] at h
    by_cases hkw : KEYWORDS.any
        (fun kw => strContains (pyLower (pyStrip (nm.getD ""))) kw) = true
    · simp only [hkw, if_true] at h
      cases bd with
      | none => exact ih _ e h
      | some start =>
        by_cases hw : start < clock k ∨ cutoff < start
        · simp only [hw, if_true] at h
          exact ih _ e h
        · simp only [hw, if_false, List.mem_cons] at h
          rcases h with rfl | h
          · exact ⟨hkw, rfl⟩
          · exact ih _ e h
    · simp only [Bool.not_eq_true] at hkw
      simp only [hkw, Bool.false_eq_true, if_false] at h
      exact ih _ e h

/-- When every clock reading returns the same instant `t`, the collection
loop is a `filterMap` over the entries with the window `[t, cutoff]`. -/
theorem extractGo_const_clock (t cutoff : Int) :
    ∀ (cal : List CalEntry) (k : Nat),
      extractGo (fun _ => t) cutoff cal k
        = cal.filterMap (fun ev =>
            let name := pyStrip (ev.name.getD "")
            let lname := pyLower name
            match ev.begin_dt with
            | none => none
            | some start =>
              if KEYWORDS.any (fun kw => strContains lname kw)
                  ∧ t ≤ start ∧ start ≤ cutoff then
                some { etype := etypeOf lname, name := name, start := start,
                       endTime := none, mag := none, source := "In-The-Sky iCal" }
              else none) := by
  intro cal
  induction cal with
  | nil => intro k; rfl
  | cons ev rest ih =>
    intro k
    obtain ⟨nm, bd⟩ := ev
    simp only [extractGo, List.filterMap_cons]
    cases bd with
    | none =>
      by_cases hkw : KEYWORDS.any
          (fun kw => strContains (pyLower (pyStrip (nm.getD ""))) kw) = true <;>
        simp [hkw, ih]
    | some start =>
      by_cases hkw : KEYWORDS.any
          (fun kw => strContains (pyLower (pyStrip (nm.getD ""))) kw) = true
      · by_cases hw : start < t ∨ cutoff < start
        · have hw2 : ¬ (t ≤ start ∧ start ≤ cutoff) := by omega
          simp [hkw, hw, hw2, ih]
        · have hw2 : t ≤ start ∧ start ≤ cutoff := by omega
          simp [hkw, hw, hw2, ih]
      · simp only [Bool.not_eq_true] at hkw
        simp [hkw, ih]

theorem filter_start_sortByStart (k : Int) (l : List Event) :
    (sortByStart l).filter (fun a => a.start == k)
      = l.filter (fun a => a.start == k) := by
  induction l with
  | nil => rfl
  | cons x xs ih =>
    by_cases hxk : x.start = k <;>
      simp [sortByStart, filter_start_insertEv, ih, List.filter_cons, hxk]

/-- A `filterMap` over two identical items keeps an even number of them. -/
theorem filterMap_pair_length_even {α β : Type} (f : α → Option β) (a : α) :
    (List.filterMap f [a, a]).length % 2 = 0 := by
  cases h : f a <;> simp [List.filterMap_cons, h]

/-! ## Lemmas about the pass conversion loop -/

theorem mapExcept_ok_length {α β ε : Type} {f : α → Except ε β}
    {l : List α} {out : List β} (h : mapExcept f l = .ok out) :
    out.length = l.length := by
  induction l generalizing out with
  | nil =>
    simp only [mapExcept] at h
    cases h
    rfl
  | cons a as ih =>
    simp only [mapExcept, bind, Except.bind] at h
    cases hf : f a with
    | error ex => rw [hf] at h; cases h
    | ok b =>
      rw [hf] at h
      cases hrest : mapExcept f as with
      | error ex => rw [hrest] at h; cases h
      | ok bs =>
        rw [hrest] at h
        cases h
        simp [ih hrest]

theorem mapExcept_ok_mem {α β ε : Type} {f : α → Except ε β}
    {l : List α} {out : List β} (h : mapExcept f l = .ok out)
    {b : β} (hb : b ∈ out) : ∃ a ∈ l, f a = .ok b := by
  induction l generalizing out with
  | nil =>
    simp only [mapExcept] at h
    cases h
    cases hb
  | cons a as ih =>
    simp only [mapExcept, bind, Except.bind] at h
    cases hf : f a with
    | error ex => rw [hf] at h; cases h
    | ok b0 =>
      rw [hf] at h
      cases hrest : mapExcept f as with
      | error ex => rw [hrest] at h; cases h
      | ok bs =>
        rw [hrest] at h
        cases h
        rcases List.mem_cons.mp hb with rfl | hb
        · exact ⟨a, List.mem_cons_self a as, hf⟩
        · rcases ih hrest hb with ⟨a0, ha0, hfa0⟩
          exact ⟨a0, List.mem_cons_of_mem a ha0, hfa0⟩

/-- Every successfully converted pass record yields an `"ISS Pass"` event
from the N2YO source whose name is synthesized from an elevation value. -/
theorem convertPass_shape {p : Json} {e : Event} (h : convertPass p = .ok e) :
    e.etype = "ISS Pass" ∧ e.source = "N2YO"
      ∧ ∃ n : Int, e.name = "ISS visible pass (max elev ~" ++ toString n ++ "°)" := by
  simp only [convertPass, bind, Except.bind, pure, Except.pure] at h
  iterate 8 (all_goals try split at h)
  all_goals cases h
  all_goals exact ⟨rfl, rfl, _, rfl⟩

theorem matchHere_append (l r : List Char) : matchHere l (l ++ r) = true := by
  induction l with
  | nil => rfl
  | cons c cs ih => simp [matchHere, ih]

/-- The synthesized pass name always begins with the fixed phrase of
line 118. -/
theorem convertPass_name_shape {e : Event} {n : Int}
    (h : e.name = "ISS visible pass (max elev ~" ++ toString n ++ "°)") :
    matchHere "ISS visible pass (max elev ~".toList e.name.toList = true := by
  have hd : e.name.toList
      = "ISS visible pass (max elev ~".toList
        ++ ((toString n).toList ++ "°)".toList) := by
    rw [h]
    simp [String.toList, String.data_append]
  rw [hd]
  exact matchHere_append _ _

/-! ## The claims -/

/-- C1: for every raw calendar entry, `extract_meteors_eclipses` retains
the entry iff its trimmed, lower-cased name contains one of the configured
keywords, the entry has a start time, and its start (instant unchanged by
the timezone conversion) lies in the window `[now, now + horizon_days]` —
stated as equality with the spec-side classifier for the instant `t` that
every clock reading of the call returns. -/
theorem C1_classifier_retention (t : Int) (cal : List CalEntry) (h : Int) :
    extract_meteors_eclipses (fun _ => t) cal h = classifierSpec t cal h := by
  simp only [extract_meteors_eclipses, classifierSpec]
  rw [extractGo_const_clock]

/-- C3: the claim says both window bounds are judged against a single
clock reading per call; in the code only `cutoff` is (line 62), while the
lower bound re-reads the clock per entry (line 75).  With readings
0, 5, 15 and two identical entries starting at 10, the call keeps exactly
one of the two — impossible under any single reading `t`, which always
keeps both or neither (an even count). -/
theorem C3_per_entry_clock_reading :
    (extract_meteors_eclipses
        (fun k => if k = 0 then 0 else if k = 1 then 5 else 15)
        [⟨some "Total Eclipse", some 10⟩, ⟨some "Total Eclipse", some 10⟩]
        1).length = 1
      ∧ ∀ t : Int,
        (extract_meteors_eclipses (fun _ => t)
          [⟨some "Total Eclipse", some 10⟩, ⟨some "Total Eclipse", some 10⟩]
          1).length % 2 = 0 := by
  constructor
  · decide
  · intro t
    simp only [extract_meteors_eclipses]
    rw [extractGo_const_clock, length_sortByStart]
    exact filterMap_pair_length_even _ _

/-- C5: the classifier output and the merged concatenation of the adapter
outputs are sorted ascending by `start`, and both sorts are stable: the
equal-start events of the output, in order, are exactly the equal-start
events of the respective pre-sort sequence, in order. -/
theorem C5_sorted_and_stable (clock : Nat → Int) (cal : List CalEntry)
    (h : Int) (l1 l2 : List Event) (k : Int) :
    (extract_meteors_eclipses clock cal h).Pairwise
        (fun a b => a.start ≤ b.start)
      ∧ (extract_meteors_eclipses clock cal h).filter (fun a => a.start == k)
          = (extractGo clock (clock 0 + h * 86400) cal 1).filter
              (fun a => a.start == k)
      ∧ (mergeEvents l1 l2).Pairwise (fun a b => a.start ≤ b.start)
      ∧ (mergeEvents l1 l2).filter (fun a => a.start == k)
          = (l1 ++ l2).filter (fun a => a.start == k) := by
  refine ⟨sorted_sortByStart _, filter_start_sortByStart k _,
    sorted_sortByStart _, filter_start_sortByStart k _⟩

/-- C6: a retained entry whose lower-cased name contains both
`"meteor shower"` and `"eclipse"` is tagged `"Meteor Shower"`
(first-match priority on line 77). -/
theorem C6_meteor_shower_priority (clock : Nat → Int) (cal : List CalEntry)
    (h : Int) (e : Event)
    (he : e ∈ extract_meteors_eclipses clock cal h)
    (hm : strContains (pyLower e.name) "meteor shower" = true)
    (_hecl : strContains (pyLower e.name) "eclipse" = true) :
    e.etype = "Meteor Shower" := by
  have he' : e ∈ sortByStart (extractGo clock (clock 0 + h * 86400) cal 1) := he
  obtain ⟨hkw, hety⟩ :=
    mem_extractGo clock (clock 0 + h * 86400) cal 1 e (mem_sortByStart.mp he')
  rw [hety]
  simp [etypeOf, hm]

/-- Witness for C6 at one concrete call. -/
theorem C6_meteor_shower_priority_witness :
    (⟨"Meteor Shower", "Eclipse during the Meteor Shower", 100, none, none,
      "In-The-Sky iCal"⟩ : Event).etype = "Meteor Shower" :=
  C6_meteor_shower_priority (fun _ => 0)
    [⟨some "Eclipse during the Meteor Shower", some 100⟩] 1
    ⟨"Meteor Shower", "Eclipse during the Meteor Shower", 100, none, none,
      "In-The-Sky iCal"⟩
    (by
      have hout : extract_meteors_eclipses (fun _ => 0)
          [⟨some "Eclipse during the Meteor Shower", some 100⟩] 1
          = [⟨"Meteor Shower", "Eclipse during the Meteor Shower", 100, none,
              none, "In-The-Sky iCal"⟩] := rfl
      rw [hout]
      exact List.mem_cons_self _ _)
    (by decide) (by decide)

/-- C7: with no API key configured, `fetch_iss_passes` returns the empty
list and makes zero network calls, whatever the location, altitude,
horizon and minimum-elevation arguments. -/
theorem C7_no_key_silent_skip (net : N2yoRequest → HttpResponse)
    (lat lon alt_m days min_elev : Int) :
    fetch_iss_passes none net lat lon alt_m days min_elev
      = (Except.ok [], 0) := rfl

/-- C8: every event the classifier produces is tagged `"Meteor Shower"` or
`"Eclipse"`; the generic `"Event"` fallback of line 77 is unreachable
because the keyword filter of line 67 already required one of the two
keyword substrings. -/
theorem C8_fallback_unreachable (clock : Nat → Int) (cal : List CalEntry)
    (h : Int) (e : Event)
    (he : e ∈ extract_meteors_eclipses clock cal h) :
    e.etype = "Meteor Shower" ∨ e.etype = "Eclipse" := by
  have he' : e ∈ sortByStart (extractGo clock (clock 0 + h * 86400) cal 1) := he
  obtain ⟨hkw, hety⟩ :=
    mem_extractGo clock (clock 0 + h * 86400) cal 1 e (mem_sortByStart.mp he')
  rw [hety]
  simp only [KEYWORDS, List.any_cons, List.any_nil, Bool.or_false,
    Bool.or_eq_true] at hkw
  by_cases hm : strContains (pyLower e.name) "meteor shower" = true
  · left
    simp [etypeOf, hm]
  · right
    rcases hkw with hkw | hkw
    · exact absurd hkw hm
    · simp [etypeOf, hm, hkw]

/-- Witness for C8 at one concrete call. -/
theorem C8_fallback_unreachable_witness :
    (⟨"Meteor Shower", "Perseid Meteor Shower", 100, none, none,
      "In-The-Sky iCal"⟩ : Event).etype = "Meteor Shower"
      ∨ (⟨"Meteor Shower", "Perseid Meteor Shower", 100, none, none,
          "In-The-Sky iCal"⟩ : Event).etype = "Eclipse" :=
  C8_fallback_unreachable (fun _ => 0)
    [⟨some "Perseid Meteor Shower", some 100⟩] 1
    ⟨"Meteor Shower", "Perseid Meteor Shower", 100, none, none,
      "In-The-Sky iCal"⟩
    (by
      have hout : extract_meteors_eclipses (fun _ => 0)
          [⟨some "Perseid Meteor Shower", some 100⟩] 1
          = [⟨"Meteor Shower", "Perseid Meteor Shower", 100, none, none,
              "In-The-Sky iCal"⟩] := rfl
      rw [hout]
      exact List.mem_cons_self _ _)

/-- C2, counterexample: on HTTP 200 with the valid JSON body `[]` — an
unexpected but well-formed body — line 106 runs `data.get` on a list,
outside the `try` block, and the call raises `AttributeError` instead of
returning a list. -/
theorem C2_raises_counterexample :
    fetch_iss_passes (some "KEY")
        (fun _ => HttpResponse.ok 200 (some (Json.arr []))) 40 (-74) 50 14 10
      = (Except.error PyExc.attributeError, 1) := rfl

/-- C2 (amended): `fetch_iss_passes` swallows every network failure, every
HTTP error status (the 400–599 range `raise_for_status` raises for) and
every JSON decode failure, returning the empty list; only a body that
decodes successfully can make it raise. -/
theorem C2_swallows_transport_failures (api_key : Option String)
    (net : N2yoRequest → HttpResponse) (lat lon alt_m days min_elev : Int)
    (hfail : ∀ req, net req = HttpResponse.netError
      ∨ ∃ s b, net req = HttpResponse.ok s b
          ∧ ((400 ≤ s ∧ s < 600) ∨ b = none)) :
    (fetch_iss_passes api_key net lat lon alt_m days min_elev).1
      = Except.ok [] := by
  cases api_key with
  | none => rfl
  | some key =>
    by_cases hk : key = ""
    · simp [fetch_iss_passes, hk]
    · rcases hfail
          { lat := lat, lon := lon, alt_m := alt_m, days := days,
            min_elev := min_elev, apiKey := key } with hne | ⟨s, b, hok, hsb⟩
      · simp [fetch_iss_passes, hk, hne]
      · rcases hsb with hs | rfl
        · simp [fetch_iss_passes, hk, hok, hs.1, hs.2]
        · by_cases h4 : 400 ≤ s ∧ s < 600 <;>
            simp [fetch_iss_passes, hk, hok, h4]

/-- Witness for C2 (amended) on a network failure. -/
theorem C2_swallows_transport_failures_witness :
    (fetch_iss_passes (some "KEY") (fun _ => HttpResponse.netError)
        40 (-74) 50 14 10).1 = Except.ok [] :=
  C2_swallows_transport_failures (some "KEY") (fun _ => HttpResponse.netError)
    40 (-74) 50 14 10 (fun _ => Or.inl rfl)

/-- C4, counterexample: with "now" at 1000, the satellite adapter converts
a pass record with `startUTC = 0` into an event starting at epoch 0 — far
before the window — and that event reaches the merge stage unfiltered. -/
theorem C4_window_counterexample :
    (fetch_iss_passes (some "KEY")
        (fun _ => HttpResponse.ok 200 (some (Json.obj [("passes",
          Json.arr [Json.obj [("startUTC", Json.num 0), ("endUTC", Json.num 60),
            ("maxEl", Json.num 45)]])])))
        40 (-74) 50 14 10).1
      = Except.ok [⟨"ISS Pass", "ISS visible pass (max elev ~45°)", 0, some 60,
          none, "N2YO"⟩]
    ∧ mergeEvents (extract_meteors_eclipses (fun _ => 1000) [] 14)
        [⟨"ISS Pass", "ISS visible pass (max elev ~45°)", 0, some 60, none,
          "N2YO"⟩]
      = [⟨"ISS Pass", "ISS visible pass (max elev ~45°)", 0, some 60, none,
          "N2YO"⟩]
    ∧ (0 : Int) < 1000 := ⟨rfl, rfl, by decide⟩

/-- C4 (amended): the in-window invariant holds for the astronomy
classifier's events; the satellite adapter applies no local window filter,
so its events carry whatever start the API reported. -/
theorem C4_classifier_window (t : Int) (cal : List CalEntry) (h : Int)
    (e : Event) (he : e ∈ extract_meteors_eclipses (fun _ => t) cal h) :
    t ≤ e.start ∧ e.start ≤ t + h * 86400 := by
  have he' : e ∈ sortByStart (extractGo (fun _ => t) (t + h * 86400) cal 1) :=
    he
  have hmem := mem_sortByStart.mp he'
  rw [extractGo_const_clock] at hmem
  rcases List.mem_filterMap.mp hmem with ⟨ev, hev, hsome⟩
  rcases ev with ⟨nm, bd⟩
  cases bd with
  | none => simp at hsome
  | some start =>
    dsimp only at hsome
    split at hsome
    · rename_i hc
      cases hsome
      exact ⟨hc.2.1, hc.2.2⟩
    · cases hsome

/-- Witness for C4 (amended) at one concrete call. -/
theorem C4_classifier_window_witness :
    (0 : Int) ≤ (⟨"Eclipse", "Lunar Eclipse", 50, none, none,
        "In-The-Sky iCal"⟩ : Event).start
      ∧ (⟨"Eclipse", "Lunar Eclipse", 50, none, none,
          "In-The-Sky iCal"⟩ : Event).start ≤ 0 + 1 * 86400 :=
  C4_classifier_window 0 [⟨some "Lunar Eclipse", some 50⟩] 1
    ⟨"Eclipse", "Lunar Eclipse", 50, none, none, "In-The-Sky iCal"⟩
    (by
      have hout : extract_meteors_eclipses (fun _ => 0)
          [⟨some "Lunar Eclipse", some 50⟩] 1
          = [⟨"Eclipse", "Lunar Eclipse", 50, none, none,
              "In-The-Sky iCal"⟩] := rfl
      rw [hout]
      exact List.mem_cons_self _ _)

/-- C9: on a successful fetch whose decoded body holds a `passes` list and
whose records all convert, the adapter returns exactly one event per pass
record (in sorted order): no record is dropped by any local elevation or
time-window filter, every event is an `"ISS Pass"`, and every name starts
with the phrase synthesized from the record's max elevation. -/
theorem C9_one_event_per_record (key : String)
    (net : N2yoRequest → HttpResponse) (lat lon alt_m days min_elev : Int)
    (status : Nat) (fields : List (String × Json)) (ps : List Json)
    (out : List Event)
    (hk : ¬ key = "")
    (hresp : net
        { lat := lat, lon := lon, alt_m := alt_m, days := days,
          min_elev := min_elev, apiKey := key }
      = HttpResponse.ok status (some (Json.obj fields)))
    (hst : status < 400)
    (hp : List.lookup "passes" fields = some (Json.arr ps))
    (hconv : mapExcept convertPass ps = Except.ok out) :
    fetch_iss_passes (some key) net lat lon alt_m days min_elev
        = (Except.ok (sortByStart out), 1)
      ∧ (sortByStart out).length = ps.length
      ∧ (sortByStart out).all (fun e =>
          e.etype == "ISS Pass"
            && matchHere "ISS visible pass (max elev ~".toList e.name.toList)
          = true := by
  have harr : (if (Json.arr ps).truthy then Json.arr ps else Json.arr [])
      = Json.arr ps := by
    cases ps <;> simp [Json.truthy]
  refine ⟨?_, ?_, ?_⟩
  · have h4 : ¬ (400 ≤ status ∧ status < 600) := by omega
    simp [fetch_iss_passes, hk, hresp, h4, jsonGet, hp, harr, pyIter, hconv,
      bind, Except.bind, pure, Except.pure]
  · rw [length_sortByStart]
    exact mapExcept_ok_length hconv
  · rw [List.all_eq_true]
    intro e hmem
    rcases mapExcept_ok_mem hconv (mem_sortByStart.mp hmem) with ⟨p, hpmem, hpc⟩
    rcases convertPass_shape hpc with ⟨h1, h2, n, h3⟩
    rw [Bool.and_eq_true, beq_iff_eq]
    exact ⟨h1, convertPass_name_shape h3⟩

/-- Witness for C9 on a concrete one-record response. -/
theorem C9_one_event_per_record_witness :
    fetch_iss_passes (some "KEY")
        (fun _ => HttpResponse.ok 200 (some (Json.obj [("passes",
          Json.arr [Json.obj [("startUTC", Json.num 100),
            ("endUTC", Json.num 160), ("maxEl", Json.num 30)]])])))
        40 (-74) 50 14 10
        = (Except.ok (sortByStart [⟨"ISS Pass",
            "ISS visible pass (max elev ~30°)", 100, some 160, none,
            "N2YO"⟩]), 1)
      ∧ (sortByStart [⟨"ISS Pass", "ISS visible pass (max elev ~30°)", 100,
          some 160, none, "N2YO"⟩]).length
          = [Json.obj [("startUTC", Json.num 100), ("endUTC", Json.num 160),
              ("maxEl", Json.num 30)]].length
      ∧ (sortByStart [⟨"ISS Pass", "ISS visible pass (max elev ~30°)", 100,
          some 160, none, "N2YO"⟩]).all (fun e =>
            e.etype == "ISS Pass"
              && matchHere "ISS visible pass (max elev ~".toList e.name.toList)
          = true :=
  C9_one_event_per_record "KEY"
    (fun _ => HttpResponse.ok 200 (some (Json.obj [("passes",
      Json.arr [Json.obj [("startUTC", Json.num 100), ("endUTC", Json.num 160),
        ("maxEl", Json.num 30)]])])))
    40 (-74) 50 14 10 200
    [("passes", Json.arr [Json.obj [("startUTC", Json.num 100),
      ("endUTC", Json.num 160), ("maxEl", Json.num 30)]])]
    [Json.obj [("startUTC", Json.num 100), ("endUTC", Json.num 160),
      ("maxEl", Json.num 30)]]
    [⟨"ISS Pass", "ISS visible pass (max elev ~30°)", 100, some 160, none,
      "N2YO"⟩]
    (by decide) rfl (by omega) rfl rfl

/-- C10: a pass record lacking `startUTC` and `endUTC` is not discarded:
the missing timestamps default to epoch 0 (`p.get(..., 0)` on lines
109–110), so the resulting event starts and ends at the epoch instant
(unchanged by the timezone conversion). -/
theorem C10_missing_timestamp_epoch (key : String)
    (net : N2yoRequest → HttpResponse) (lat lon alt_m days min_elev : Int)
    (status : Nat) (fields pf : List (String × Json)) (el : Int)
    (hk : ¬ key = "")
    (hresp : net
        { lat := lat, lon := lon, alt_m := alt_m, days := days,
          min_elev := min_elev, apiKey := key }
      = HttpResponse.ok status (some (Json.obj fields)))
    (hst : status < 400)
    (hp : List.lookup "passes" fields = some (Json.arr [Json.obj pf]))
    (hs : List.lookup "startUTC" pf = none)
    (he : List.lookup "endUTC" pf = none)
    (hel : List.lookup "maxEl" pf = some (Json.num el))
    (hmag : List.lookup "mag" pf = none) :
    fetch_iss_passes (some key) net lat lon alt_m days min_elev
      = (Except.ok [⟨"ISS Pass",
          "ISS visible pass (max elev ~" ++ toString el ++ "°)", 0, some 0,
          none, "N2YO"⟩], 1) := by
  have h4 : ¬ (400 ≤ status ∧ status < 600) := by omega
  simp [fetch_iss_passes, hk, hresp, h4, jsonGet, hp, hs, he, hel, hmag,
    Json.truthy, pyIter, mapExcept, convertPass, pyTimestamp, pyIntOf,
    sortByStart, insertEv, bind, Except.bind, pure, Except.pure]

/-- Witness for C10 on a concrete record with both timestamps missing. -/
theorem C10_missing_timestamp_epoch_witness :
    fetch_iss_passes (some "KEY")
        (fun _ => HttpResponse.ok 200 (some (Json.obj [("passes",
          Json.arr [Json.obj [("maxEl", Json.num 20)]])])))
        40 (-74) 50 14 10
      = (Except.ok [⟨"ISS Pass",
          "ISS visible pass (max elev ~" ++ toString (20 : Int) ++ "°)", 0,
          some 0, none, "N2YO"⟩], 1) :=
  C10_missing_timestamp_epoch "KEY"
    (fun _ => HttpResponse.ok 200 (some (Json.obj [("passes",
      Json.arr [Json.obj [("maxEl", Json.num 20)]])])))
    40 (-74) 50 14 10 200
    [("passes", Json.arr [Json.obj [("maxEl", Json.num 20)]])]
    [("maxEl", Json.num 20)] 20
    (by decide) rfl (by omega) rfl rfl rfl rfl rfl
